import Mathlib

/-!
# Verification of the UMKM budget-variance pipeline

Shallow embedding of `src/app.py`: a single-pass Streamlit page that
loads a spreadsheet, validates the schema, coerces `Budget`/`Actual`
to numbers (zero-fallback), derives `Variance` and `Variance %`
columns, computes aggregate KPIs, draws a chart, optionally requests
an AI insight, and serializes the augmented table for download.

A dataframe is modelled column-wise as an ordered association list of
column name / cell list pairs, mirroring pandas column semantics
(assignment to an existing column replaces it in place; assignment to
a fresh name appends it at the end). Numbers are `ℚ`; the pandas
`NaN` and the blank spreadsheet cell are both `Cell.empty`.
-/

set_option autoImplicit false

namespace UmkmApp

/-- One spreadsheet cell: a number, a text, or a missing value
(`empty` stands both for a blank input cell and for pandas `NaN`). -/
inductive Cell where
  | num (q : ℚ)
  | str (s : String)
  | empty
  deriving DecidableEq, Repr

/-- Leading/trailing-whitespace removal on a character list,
embedding Python's `str.strip()` used in `app.py` line 42. -/
def stripChars (cs : List Char) : List Char :=
  ((cs.dropWhile Char.isWhitespace).reverse.dropWhile Char.isWhitespace).reverse

/-- Python `c.strip()` on a string. -/
def strip (s : String) : String :=
  ⟨stripChars s.data⟩

/-- `cs` is a nonempty list of decimal digits. -/
def isDigits (cs : List Char) : Bool :=
  !cs.isEmpty && cs.all Char.isDigit

/-- Value of a list of decimal digits. -/
def digitsVal (cs : List Char) : ℕ :=
  cs.foldl (fun n c => 10 * n + (c.toNat - 48)) 0

/-- Parse an unsigned decimal numeral, optionally with a fractional
part, from a character list. -/
def parseUnsigned (cs : List Char) : Option ℚ :=
  match cs.span (fun c => c ≠ '.') with
  | (intPart, []) =>
      if isDigits intPart then some (digitsVal intPart) else none
  | (intPart, _dot :: fracPart) =>
      if isDigits intPart && isDigits fracPart then
        some ((digitsVal intPart : ℚ) +
          (digitsVal fracPart : ℚ) / (10 ^ fracPart.length))
      else none

/-- Modelled from the spec: the string-to-number conversion performed
by the external pandas `to_numeric(errors="coerce")` call (`app.py`
line 51) — an optional sign followed by a decimal numeral parses to
its value, anything else is unparseable (`none`, i.e. `NaN`). -/
def parseDecimal (s : String) : Option ℚ :=
  match s.data with
  | '-' :: rest => (parseUnsigned rest).map Neg.neg
  | '+' :: rest => parseUnsigned rest
  | cs => parseUnsigned cs

/-- `pd.to_numeric(cell, errors="coerce")`: a numeric cell keeps its
value, a text cell is parsed, a missing cell stays missing (`NaN`). -/
def toNumeric (c : Cell) : Option ℚ :=
  match c with
  | .num q => some q
  | .str s => parseDecimal s
  | .empty => none

/-- `pd.to_numeric(cell, errors="coerce")` followed by `.fillna(0)`
(`app.py` line 51): the total numeric normalization of one cell. -/
def normCell (c : Cell) : ℚ :=
  (toNumeric c).getD 0

/-- A dataframe: ordered list of (column name, cell values) pairs. -/
abbrev DF := List (String × List Cell)

/-- Read a column by name (first match), as pandas `df[name]`. -/
def getCol : DF → String → Option (List Cell)
  | [], _ => none
  | (c, v) :: rest, n => if c = n then some v else getCol rest n

/-- Write a column by name, as pandas `df[name] = vals`: replaces the
existing column in place, or appends a new column at the end. -/
def setCol : DF → String → List Cell → DF
  | [], n, vals => [(n, vals)]
  | (c, v) :: rest, n, vals =>
      if c = n then (n, vals) :: rest else (c, v) :: setCol rest n vals

/-- `df.columns`. -/
def colNames (df : DF) : List String :=
  df.map Prod.fst

/-- `df.columns = [c.strip() for c in df.columns]` (`app.py` line 42). -/
def stripCols (df : DF) : DF :=
  df.map (fun p => (strip p.1, p.2))

/-- The required column list of `app.py` line 44. -/
def requiredCols : List String :=
  ["Category", "Budget", "Actual"]

/-- `all(col in df.columns for col in required_cols)` (line 45). -/
def schemaOK (df : DF) : Bool :=
  requiredCols.all (fun c => (colNames df).contains c)

/-- Numeric reading of a cell once the column has been normalized
(used where the code does arithmetic on a coerced column). -/
def cellQ (c : Cell) : ℚ :=
  match c with
  | .num q => q
  | _ => 0

/-- The numeric values of a column. -/
def getColQ (df : DF) (n : String) : List ℚ :=
  ((getCol df n).getD []).map cellQ

/-- `df[col] = pd.to_numeric(df[col], errors="coerce").fillna(0)` for
one column (line 51). -/
def normalizeCol (df : DF) (n : String) : DF :=
  setCol df n (((getCol df n).getD []).map (fun c => Cell.num (normCell c)))

/-- The loop of `app.py` lines 50–51 over `["Budget", "Actual"]`. -/
def normalizeDF (df : DF) : DF :=
  normalizeCol (normalizeCol df "Budget") "Actual"

/-- `df["Variance"] = df["Actual"] - df["Budget"]` (line 54). -/
def addVariance (df : DF) : DF :=
  setCol df "Variance"
    (List.zipWith (fun a b => Cell.num (a - b))
      (getColQ df "Actual") (getColQ df "Budget"))

/-- `df["Variance %"] = np.where(df["Budget"] == 0, np.nan,
(df["Variance"] / df["Budget"]) * 100)` (line 55). -/
def addVarPct (df : DF) : DF :=
  setCol df "Variance %"
    (List.zipWith (fun b v => if b = 0 then Cell.empty else Cell.num (v / b * 100))
      (getColQ df "Budget") (getColQ df "Variance"))

/-- The table the page displays and exports: column-name trimming,
numeric normalization, then the two derived columns (lines 42–55),
for an input that passed the schema check. -/
def pipelineTable (df0 : DF) : DF :=
  addVarPct (addVariance (normalizeDF (stripCols df0)))

/-- The KPI aggregate of `app.py` lines 61–64. -/
structure Summary where
  totalBudget : ℚ
  totalActual : ℚ
  totalVariance : ℚ
  totalVarPct : ℚ
  deriving DecidableEq, Repr

/-- `total_budget`, `total_actual`, `total_variance`, `total_var_pct`
computed from the augmented table (lines 61–64). -/
def mkSummary (df : DF) : Summary :=
  let tb := (getColQ df "Budget").sum
  let ta := (getColQ df "Actual").sum
  let tv := ta - tb
  { totalBudget := tb
    totalActual := ta
    totalVariance := tv
    totalVarPct := if tb ≠ 0 then tv / tb * 100 else 0 }

/-- The bar-chart input: `(Category, Variance)` pairs (lines 73–80). -/
def chartData (df : DF) : List (Cell × ℚ) :=
  List.zip ((getCol df "Category").getD []) (getColQ df "Variance")

/-- Number of data rows of a dataframe (all columns share it on a
wellformed frame). -/
def nrows : DF → ℕ
  | [] => 0
  | p :: _ => p.2.length

/-- Every column holds one cell per row. -/
def wfDF (df : DF) : Prop :=
  ∀ p ∈ df, p.2.length = nrows df

instance (df : DF) : Decidable (wfDF df) :=
  List.decidableBAll _ df

/-- `to_excel` (`app.py` lines 113–121): the exported grid, a header
row of the column names followed by one row per record, column order
preserved; a missing value (`NaN`) becomes an empty cell. -/
def exportDF (df : DF) : List (List Cell) :=
  (df.map (fun p => Cell.str p.1)) ::
    (List.range (nrows df)).map (fun j => df.map (fun p => p.2.getD j Cell.empty))

/-- Column name read back from a header cell. -/
def headName (c : Cell) : String :=
  match c with
  | .str s => s
  | _ => ""

/-- Modelled from the spec: re-importing the exported spreadsheet with
the external reader (`pd.read_excel`) — first row is the header, each
later row one record, an absent cell read as missing (`NaN`). -/
def reimportDF (grid : List (List Cell)) : DF :=
  match grid with
  | [] => []
  | header :: rs =>
      (List.range header.length).map (fun i =>
        (headName (header.getD i Cell.empty), rs.map (fun r => r.getD i Cell.empty)))

/-- Outcome of the AI-insight section (`app.py` lines 84–110). -/
inductive InsightOutcome where
  | warning
  | text (s : String)
  | errorMsg (s : String)
  deriving DecidableEq, Repr

/-- Python truthiness of the `GROQ_API_KEY` value: unset (`None`) and
the empty string are both falsy. -/
def keyTruthy : Option String → Bool
  | none => false
  | some k => !(k == "")

/-- The AI-insight section (`app.py` lines 86–110): gated on library
availability and a truthy key, the remote call wrapped in
try/except. `remote` is the outcome of the external chat-completion
call. -/
def insightStep (groqAvailable : Bool) (key : Option String)
    (remote : Except String String) : InsightOutcome :=
  if !groqAvailable || !keyTruthy key then .warning
  else
    match remote with
    | .ok s => .text s
    | .error e => .errorMsg ("Error AI: " ++ e)

/-- Everything the page renders after a successful run. -/
structure PageOutput where
  table : DF
  metrics : Summary
  chart : List (Cell × ℚ)
  insight : InsightOutcome
  download : List (List Cell)
  deriving DecidableEq, Repr

/-- The page output built from a stripped, schema-valid frame. -/
def mkOutput (groqAvailable : Bool) (key : Option String)
    (remote : Except String String) (df1 : DF) : PageOutput :=
  let t := addVarPct (addVariance (normalizeDF df1))
  { table := t
    metrics := mkSummary t
    chart := chartData t
    insight := insightStep groqAvailable key remote
    download := exportDF t }

/-- The message of `app.py` line 46. -/
def schemaErrMsg : String :=
  "File harus mengandung kolom: Category, Budget, Actual"

/-- The whole script run on a successfully parsed upload (`app.py`
lines 42–128): trim column names, check the schema (`st.stop()` on
failure, so nothing further renders), otherwise produce the page. -/
def runApp (groqAvailable : Bool) (key : Option String)
    (remote : Except String String) (df0 : DF) : Except String PageOutput :=
  let df1 := stripCols df0
  if schemaOK df1 then .ok (mkOutput groqAvailable key remote df1)
  else .error schemaErrMsg

end UmkmApp

namespace UmkmApp

/-! ## Helper lemmas about column access and update -/

theorem getCol_setCol_self (df : DF) (n : String) (w : List Cell) :
    getCol (setCol df n w) n = some w := by
  induction df with
  | nil => simp [setCol, getCol]
  | cons p rest ih =>
      obtain ⟨c, v⟩ := p
      by_cases h : c = n
      · simp [setCol, getCol, h]
      · simp [setCol, getCol, h, ih]

theorem getCol_setCol_ne (df : DF) (n m : String) (w : List Cell) (h : m ≠ n) :
    getCol (setCol df n w) m = getCol df m := by
  have h' : ¬(n = m) := fun hh => h hh.symm
  induction df with
  | nil => simp [setCol, getCol, h']
  | cons p rest ih =>
      obtain ⟨c, v⟩ := p
      by_cases h1 : c = n
      · subst h1
        simp [setCol, getCol, h']
      · simp [setCol, getCol, h1, ih]

theorem colNames_setCol_of_mem (df : DF) (n : String) (w : List Cell)
    (h : n ∈ colNames df) : colNames (setCol df n w) = colNames df := by
  induction df with
  | nil => simp [colNames] at h
  | cons p rest ih =>
      obtain ⟨c, v⟩ := p
      by_cases h1 : c = n
      · simp [setCol, colNames, h1]
      · have h2 : n ∈ colNames rest := by
          have h3 := h
          simp only [colNames, List.map_cons, List.mem_cons] at h3
          rcases h3 with h3 | h3
          · exact absurd h3.symm h1
          · simpa only [colNames] using h3
        have h3 := ih h2
        simp only [colNames, List.map_cons, setCol, if_neg h1] at h3 ⊢
        rw [h3]

theorem colNames_setCol_of_not_mem (df : DF) (n : String) (w : List Cell)
    (h : n ∉ colNames df) : colNames (setCol df n w) = colNames df ++ [n] := by
  induction df with
  | nil => simp [setCol, colNames]
  | cons p rest ih =>
      obtain ⟨c, v⟩ := p
      have h1 : ¬(c = n) := by
        intro hh
        exact h (by simp only [colNames, List.map_cons, hh]; exact List.mem_cons_self _ _)
      have h2 : n ∉ colNames rest := by
        intro hh
        apply h
        simp only [colNames, List.map_cons, List.mem_cons]
        right
        simpa only [colNames] using hh
      have h3 := ih h2
      simp only [colNames, List.map_cons, setCol, if_neg h1, List.cons_append] at h3 ⊢
      rw [h3]

theorem schemaOK_iff (df : DF) :
    schemaOK df = true ↔
      ("Category" ∈ colNames df ∧ "Budget" ∈ colNames df ∧ "Actual" ∈ colNames df) := by
  simp [schemaOK, requiredCols, List.contains]

theorem colNames_stripCols (df : DF) :
    colNames (stripCols df) = (colNames df).map strip := by
  simp [colNames, stripCols, List.map_map, Function.comp]

theorem getCol_normalizeCol_ne (df : DF) (n m : String) (h : m ≠ n) :
    getCol (normalizeCol df n) m = getCol df m :=
  getCol_setCol_ne df n m _ h

theorem getCol_normalizeDF_budget (df : DF) :
    getCol (normalizeDF df) "Budget" =
      some (((getCol df "Budget").getD []).map (fun c => Cell.num (normCell c))) := by
  unfold normalizeDF
  rw [getCol_normalizeCol_ne _ _ _ (by decide)]
  unfold normalizeCol
  exact getCol_setCol_self ..

theorem getCol_normalizeDF_actual (df : DF) :
    getCol (normalizeDF df) "Actual" =
      some (((getCol (normalizeCol df "Budget") "Actual").getD []).map
        (fun c => Cell.num (normCell c))) := by
  unfold normalizeDF normalizeCol
  exact getCol_setCol_self ..

theorem getCol_normalizeDF_ne (df : DF) (m : String)
    (h1 : m ≠ "Budget") (h2 : m ≠ "Actual") :
    getCol (normalizeDF df) m = getCol df m := by
  unfold normalizeDF
  rw [getCol_normalizeCol_ne _ _ _ h2, getCol_normalizeCol_ne _ _ _ h1]

theorem getCol_pipelineTable_ne (df0 : DF) (m : String)
    (h1 : m ≠ "Budget") (h2 : m ≠ "Actual")
    (h3 : m ≠ "Variance") (h4 : m ≠ "Variance %") :
    getCol (pipelineTable df0) m = getCol (stripCols df0) m := by
  unfold pipelineTable addVarPct addVariance
  rw [getCol_setCol_ne _ _ _ _ h4, getCol_setCol_ne _ _ _ _ h3,
    getCol_normalizeDF_ne _ _ h1 h2]

theorem getCol_pipelineTable_variance (df0 : DF) :
    getCol (pipelineTable df0) "Variance" =
      some (List.zipWith (fun a b => Cell.num (a - b))
        (getColQ (normalizeDF (stripCols df0)) "Actual")
        (getColQ (normalizeDF (stripCols df0)) "Budget")) := by
  unfold pipelineTable addVarPct
  rw [getCol_setCol_ne _ _ _ _ (by decide)]
  unfold addVariance
  exact getCol_setCol_self ..

theorem getCol_pipelineTable_varpct (df0 : DF) :
    getCol (pipelineTable df0) "Variance %" =
      some (List.zipWith (fun b v => if b = 0 then Cell.empty else Cell.num (v / b * 100))
        (getColQ (addVariance (normalizeDF (stripCols df0))) "Budget")
        (getColQ (addVariance (normalizeDF (stripCols df0))) "Variance")) := by
  unfold pipelineTable addVarPct
  exact getCol_setCol_self ..

theorem getCol_pipelineTable_budget (df0 : DF) :
    getCol (pipelineTable df0) "Budget" =
      getCol (normalizeDF (stripCols df0)) "Budget" := by
  unfold pipelineTable addVarPct addVariance
  rw [getCol_setCol_ne _ _ _ _ (by decide), getCol_setCol_ne _ _ _ _ (by decide)]

theorem getCol_pipelineTable_actual (df0 : DF) :
    getCol (pipelineTable df0) "Actual" =
      getCol (normalizeDF (stripCols df0)) "Actual" := by
  unfold pipelineTable addVarPct addVariance
  rw [getCol_setCol_ne _ _ _ _ (by decide), getCol_setCol_ne _ _ _ _ (by decide)]

end UmkmApp

namespace UmkmApp

theorem getD_map_range {α : Type} (l : List α) (d : α) :
    (List.range l.length).map (fun i => l.getD i d) = l := by
  induction l with
  | nil => simp
  | cons a l ih =>
      have h1 : List.map ((fun i => (a :: l).getD i d) ∘ Nat.succ) (List.range l.length)
          = List.map (fun i => l.getD i d) (List.range l.length) :=
        List.map_congr_left (fun i _ => rfl)
      rw [List.length_cons, List.range_succ_eq_map, List.map_cons, List.map_map, h1, ih]
      simp

theorem reimport_export (df : DF) (h : wfDF df) :
    reimportDF (exportDF df) = df := by
  show (List.range (df.map (fun p => Cell.str p.1)).length).map _ = df
  rw [List.length_map]
  apply List.ext_getElem
  · simp
  · intro i h1 h2
    rw [List.getElem_map]
    have hi : i < df.length := by simpa using h1
    have hhead : (df.map (fun p => Cell.str p.1)).getD i Cell.empty = Cell.str df[i].1 := by
      rw [List.getD_eq_getElem?_getD, List.getElem?_map, List.getElem?_eq_getElem hi]
      rfl
    have hlen : df[i].2.length = nrows df := h df[i] (List.getElem_mem hi)
    have hdata : ∀ j, (df.map (fun p => p.2.getD j Cell.empty)).getD i Cell.empty =
        df[i].2.getD j Cell.empty := by
      intro j
      rw [List.getD_eq_getElem?_getD, List.getElem?_map, List.getElem?_eq_getElem hi]
      rfl
    rw [List.getElem_range]
    refine Prod.ext ?_ ?_
    · show headName ((df.map (fun p => Cell.str p.1)).getD i Cell.empty) = df[i].1
      rw [hhead]
      rfl
    · show ((List.range (nrows df)).map
        (fun j => df.map (fun p => p.2.getD j Cell.empty))).map
          (fun r => r.getD i Cell.empty) = df[i].2
      rw [List.map_map]
      calc ((List.range (nrows df)).map
            ((fun r => r.getD i Cell.empty) ∘ fun j => df.map (fun p => p.2.getD j Cell.empty)))
          = (List.range (nrows df)).map (fun j => df[i].2.getD j Cell.empty) := by
            apply List.map_congr_left
            intro j _
            exact hdata j
        _ = df[i].2 := by
            rw [← hlen]
            exact getD_map_range _ _

end UmkmApp

namespace UmkmApp

/-! ## Example frames used by the witnesses -/

/-- The two-row example of spec §8. -/
def exDF : DF :=
  [("Category", [Cell.str "Rent", Cell.str "Supplies"]),
   ("Budget", [Cell.num 1000, Cell.num 500]),
   ("Actual", [Cell.num 1200, Cell.num 400])]

/-- The zero-budget example row of spec §8. -/
def zbDF : DF :=
  [("Category", [Cell.str "Promo"]),
   ("Budget", [Cell.num 0]),
   ("Actual", [Cell.num 50])]

/-- A frame lacking the `Budget` column. -/
def missingDF : DF :=
  [("Category", [Cell.str "A"]), ("Actual", [Cell.num 1])]

/-! ## Claim theorems -/

/-- C1: for every record of the validated, normalized table, the derived
`Variance` column equals `Actual` minus `Budget` exactly. -/
theorem variance_eq_actual_sub_budget (df0 : DF) (i : ℕ) (a b : ℚ)
    (ha : ((getCol (pipelineTable df0) "Actual").getD [])[i]? = some (Cell.num a))
    (hb : ((getCol (pipelineTable df0) "Budget").getD [])[i]? = some (Cell.num b)) :
    ((getCol (pipelineTable df0) "Variance").getD [])[i]? = some (Cell.num (a - b)) := by
  rw [getCol_pipelineTable_actual] at ha
  rw [getCol_pipelineTable_budget] at hb
  rw [getCol_pipelineTable_variance]
  simp only [Option.getD_some]
  rw [List.getElem?_zipWith]
  simp only [getColQ, List.getElem?_map, ha, hb]
  rfl

/-- Witness for C1 on the spec §8 example: the first record has
`Budget = 1000`, `Actual = 1200`, and derived `Variance = 1200 - 1000`. -/
theorem variance_eq_actual_sub_budget_witness :
    ((getCol (pipelineTable exDF) "Variance").getD [])[0]? =
      some (Cell.num (1200 - 1000)) :=
  variance_eq_actual_sub_budget exDF 0 1200 1000 rfl rfl

/-- C2: per record, `Variance %` is the missing value when `Budget = 0`
and `(Variance / Budget) * 100` otherwise. -/
theorem varpct_zero_null_else_ratio (df0 : DF) (i : ℕ) (b v : ℚ)
    (hb : ((getCol (pipelineTable df0) "Budget").getD [])[i]? = some (Cell.num b))
    (hv : ((getCol (pipelineTable df0) "Variance").getD [])[i]? = some (Cell.num v)) :
    (b = 0 → ((getCol (pipelineTable df0) "Variance %").getD [])[i]? = some Cell.empty) ∧
    (b ≠ 0 → ((getCol (pipelineTable df0) "Variance %").getD [])[i]? =
      some (Cell.num (v / b * 100))) := by
  have hVB : getCol (addVariance (normalizeDF (stripCols df0))) "Budget"
      = getCol (normalizeDF (stripCols df0)) "Budget" := by
    unfold addVariance
    exact getCol_setCol_ne _ _ _ _ (by decide)
  have hVV : getCol (addVariance (normalizeDF (stripCols df0))) "Variance"
      = getCol (pipelineTable df0) "Variance" := by
    rw [getCol_pipelineTable_variance]
    unfold addVariance
    exact getCol_setCol_self ..
  rw [getCol_pipelineTable_budget] at hb
  constructor <;> intro hbz <;>
    · rw [getCol_pipelineTable_varpct]
      simp only [Option.getD_some]
      rw [List.getElem?_zipWith]
      simp only [getColQ, List.getElem?_map, hVB, hVV, hb, hv]
      simp [cellQ, hbz]

/-- Witness for C2 on the zero-budget spec example (`Budget = 0`,
`Actual = 50`): `Variance %` is the missing value. -/
theorem varpct_zero_null_else_ratio_witness :
    ((0 : ℚ) = 0 → ((getCol (pipelineTable zbDF) "Variance %").getD [])[0]? =
      some Cell.empty) ∧
    ((0 : ℚ) ≠ 0 → ((getCol (pipelineTable zbDF) "Variance %").getD [])[0]? =
      some (Cell.num ((50 - 0) / 0 * 100))) :=
  varpct_zero_null_else_ratio zbDF 0 0 (50 - 0) rfl rfl

/-- C4: numeric normalization is total — an unparseable or missing cell
becomes exactly `0`, a parseable cell keeps its parsed value, and after
normalization every cell of the `Budget` and `Actual` columns is a
defined number (never a missing value). -/
theorem normalization_total_zero_fallback (df : DF) (c : Cell) :
    (toNumeric c = none → normCell c = 0) ∧
    (∀ q, toNumeric c = some q → normCell c = q) ∧
    (c ∈ (getCol (normalizeDF df) "Budget").getD [] → ∃ q, c = Cell.num q) ∧
    (c ∈ (getCol (normalizeDF df) "Actual").getD [] → ∃ q, c = Cell.num q) := by
  refine ⟨?_, ?_, ?_, ?_⟩
  · intro h
    simp [normCell, h]
  · intro q h
    simp [normCell, h]
  · intro h
    rw [getCol_normalizeDF_budget] at h
    simp only [Option.getD_some, List.mem_map] at h
    obtain ⟨x, _, hx⟩ := h
    exact ⟨normCell x, hx.symm⟩
  · intro h
    rw [getCol_normalizeDF_actual] at h
    simp only [Option.getD_some, List.mem_map] at h
    obtain ⟨x, _, hx⟩ := h
    exact ⟨normCell x, hx.symm⟩

/-- Witness for C4: a text cell and a blank cell normalize to `0`, a
numeric cell keeps its value, and a cell of the normalized `Budget`
column of the example frame is a defined number. -/
theorem normalization_total_zero_fallback_witness :
    normCell (Cell.str "abc") = 0 ∧ normCell Cell.empty = 0 ∧
    normCell (Cell.num 5) = 5 ∧ (∃ q, (Cell.num 1000 : Cell) = Cell.num q) :=
  ⟨(normalization_total_zero_fallback exDF (Cell.str "abc")).1 rfl,
   (normalization_total_zero_fallback exDF Cell.empty).1 rfl,
   (normalization_total_zero_fallback exDF (Cell.num 5)).2.1 5 rfl,
   (normalization_total_zero_fallback exDF (Cell.num 1000)).2.2.1 (by decide)⟩

/-- C5: when the trimmed column set lacks any of `Category`, `Budget`,
`Actual`, the run fails with the schema message naming the required
set and produces no page output at all. -/
theorem schema_failure_halts (gA : Bool) (key : Option String)
    (remote : Except String String) (df0 : DF)
    (h : ¬ ("Category" ∈ colNames (stripCols df0) ∧
        "Budget" ∈ colNames (stripCols df0) ∧
        "Actual" ∈ colNames (stripCols df0))) :
    runApp gA key remote df0 = Except.error schemaErrMsg := by
  have hs : ¬ (schemaOK (stripCols df0) = true) := fun hh => h ((schemaOK_iff _).mp hh)
  simp [runApp, hs]

/-- Witness for C5: a frame lacking `Budget` makes the run fail with
the schema message. -/
theorem schema_failure_halts_witness :
    runApp true (some "k") (Except.ok "s") missingDF = Except.error schemaErrMsg :=
  schema_failure_halts true (some "k") (Except.ok "s") missingDF (by decide)

/-- C9: required-column matching is exact string equality after
trimming — membership of the literal names in the trimmed column set —
so `budget` (case difference) fails the check while ` Budget `
(whitespace only) passes. -/
theorem schema_match_case_sensitive (df : DF) :
    (schemaOK (stripCols df) = true ↔
      ("Category" ∈ (colNames df).map strip ∧ "Budget" ∈ (colNames df).map strip ∧
        "Actual" ∈ (colNames df).map strip)) ∧
    schemaOK (stripCols [("Category", []), ("budget", []), ("Actual", [])]) = false ∧
    schemaOK (stripCols [("Category", []), (" Budget ", []), ("Actual", [])]) = true := by
  refine ⟨?_, by decide, by decide⟩
  rw [schemaOK_iff, colNames_stripCols]

end UmkmApp

namespace UmkmApp

/-! ## More helper lemmas -/

theorem mem_colNames_of_getCol (df : DF) (n : String) (v : List Cell)
    (h : getCol df n = some v) : n ∈ colNames df := by
  induction df with
  | nil => simp [getCol] at h
  | cons p rest ih =>
      obtain ⟨c, w⟩ := p
      by_cases h1 : c = n
      · simp [colNames, h1]
      · simp only [getCol, if_neg h1] at h
        simp [colNames]
        right
        simpa [colNames] using ih h

theorem colNames_normalizeCol_of_mem (df : DF) (n : String) (h : n ∈ colNames df) :
    colNames (normalizeCol df n) = colNames df :=
  colNames_setCol_of_mem _ _ _ h

theorem colNames_normalizeDF (df : DF) (hb : "Budget" ∈ colNames df)
    (ha : "Actual" ∈ colNames df) : colNames (normalizeDF df) = colNames df := by
  unfold normalizeDF
  rw [colNames_normalizeCol_of_mem _ _ (by rw [colNames_normalizeCol_of_mem _ _ hb]; exact ha),
    colNames_normalizeCol_of_mem _ _ hb]

theorem mkSummary_spec (df : DF) :
    (mkSummary df).totalBudget = (getColQ df "Budget").sum ∧
    (mkSummary df).totalActual = (getColQ df "Actual").sum ∧
    (mkSummary df).totalVariance = (mkSummary df).totalActual - (mkSummary df).totalBudget ∧
    ((mkSummary df).totalBudget = 0 → (mkSummary df).totalVarPct = 0) ∧
    ((mkSummary df).totalBudget ≠ 0 → (mkSummary df).totalVarPct =
      (mkSummary df).totalVariance / (mkSummary df).totalBudget * 100) := by
  refine ⟨rfl, rfl, rfl, ?_, ?_⟩ <;> intro h <;> simp [mkSummary] at h ⊢ <;> simp [h]

/-! ## Claim theorems, continued -/

/-- C3: for any successful run, the KPI totals are the sums of the
`Budget` and `Actual` columns over all records, total variance is
total actual minus total budget exactly, and the total percentage is
`0` (not a missing value) when the total budget is `0`, else
`TotalVariance / TotalBudget * 100`. -/
theorem kpi_summary_correct (gA : Bool) (key : Option String)
    (remote : Except String String) (df0 : DF) (out : PageOutput)
    (hrun : runApp gA key remote df0 = Except.ok out) :
    out.metrics.totalBudget = (getColQ out.table "Budget").sum ∧
    out.metrics.totalActual = (getColQ out.table "Actual").sum ∧
    out.metrics.totalVariance = out.metrics.totalActual - out.metrics.totalBudget ∧
    (out.metrics.totalBudget = 0 → out.metrics.totalVarPct = 0) ∧
    (out.metrics.totalBudget ≠ 0 →
      out.metrics.totalVarPct =
        out.metrics.totalVariance / out.metrics.totalBudget * 100) := by
  simp only [runApp] at hrun
  by_cases hs : schemaOK (stripCols df0) = true
  · rw [if_pos hs] at hrun
    have heq : mkOutput gA key remote (stripCols df0) = out := by
      injection hrun
    subst heq
    exact mkSummary_spec _
  · rw [if_neg hs] at hrun
    simp at hrun

/-- Witness for C3 on the spec §8 example frame. -/
theorem kpi_summary_correct_witness :
    (mkOutput true (some "k") (Except.ok "s") (stripCols exDF)).metrics.totalBudget =
      (getColQ (mkOutput true (some "k") (Except.ok "s") (stripCols exDF)).table "Budget").sum ∧
    (mkOutput true (some "k") (Except.ok "s") (stripCols exDF)).metrics.totalActual =
      (getColQ (mkOutput true (some "k") (Except.ok "s") (stripCols exDF)).table "Actual").sum ∧
    (mkOutput true (some "k") (Except.ok "s") (stripCols exDF)).metrics.totalVariance =
      (mkOutput true (some "k") (Except.ok "s") (stripCols exDF)).metrics.totalActual -
        (mkOutput true (some "k") (Except.ok "s") (stripCols exDF)).metrics.totalBudget ∧
    ((mkOutput true (some "k") (Except.ok "s") (stripCols exDF)).metrics.totalBudget = 0 →
      (mkOutput true (some "k") (Except.ok "s") (stripCols exDF)).metrics.totalVarPct = 0) ∧
    ((mkOutput true (some "k") (Except.ok "s") (stripCols exDF)).metrics.totalBudget ≠ 0 →
      (mkOutput true (some "k") (Except.ok "s") (stripCols exDF)).metrics.totalVarPct =
        (mkOutput true (some "k") (Except.ok "s") (stripCols exDF)).metrics.totalVariance /
          (mkOutput true (some "k") (Except.ok "s") (stripCols exDF)).metrics.totalBudget * 100) :=
  kpi_summary_correct true (some "k") (Except.ok "s") exDF _ rfl

/-- C6: the insight step is gated and non-fatal — with the client
library unavailable or no (non-empty) key configured the insight is
the warning; a failing remote call yields the caught, non-fatal error
message; and in every case the table, metrics, chart and download of
the run are those of a run with working insight. -/
theorem insight_gated_nonfatal (gA : Bool) (key : Option String)
    (remote : Except String String) (df0 : DF)
    (hschema : schemaOK (stripCols df0) = true) :
    runApp gA key remote df0 = Except.ok (mkOutput gA key remote (stripCols df0)) ∧
    (mkOutput gA key remote (stripCols df0)).table =
      (mkOutput true (some "x") (Except.ok "") (stripCols df0)).table ∧
    (mkOutput gA key remote (stripCols df0)).metrics =
      (mkOutput true (some "x") (Except.ok "") (stripCols df0)).metrics ∧
    (mkOutput gA key remote (stripCols df0)).chart =
      (mkOutput true (some "x") (Except.ok "") (stripCols df0)).chart ∧
    (mkOutput gA key remote (stripCols df0)).download =
      (mkOutput true (some "x") (Except.ok "") (stripCols df0)).download ∧
    ((gA = false ∨ key = none ∨ key = some "") →
      (mkOutput gA key remote (stripCols df0)).insight = InsightOutcome.warning) ∧
    (∀ e, gA = true → keyTruthy key = true → remote = Except.error e →
      (mkOutput gA key remote (stripCols df0)).insight =
        InsightOutcome.errorMsg ("Error AI: " ++ e)) := by
  refine ⟨by simp [runApp, hschema], rfl, rfl, rfl, rfl, ?_, ?_⟩
  · intro h
    rcases h with h | h | h <;> subst h <;> simp [mkOutput, insightStep, keyTruthy]
  · intro e hga hkey hrem
    subst hga
    subst hrem
    simp [mkOutput, insightStep, hkey]

/-- Witness for C6: a failing remote call on the example frame is
caught as the non-fatal error message while the rest of the page is
unchanged. -/
theorem insight_gated_nonfatal_witness :
    runApp true (some "k") (Except.error "boom") exDF =
      Except.ok (mkOutput true (some "k") (Except.error "boom") (stripCols exDF)) ∧
    (mkOutput true (some "k") (Except.error "boom") (stripCols exDF)).table =
      (mkOutput true (some "x") (Except.ok "") (stripCols exDF)).table ∧
    (mkOutput true (some "k") (Except.error "boom") (stripCols exDF)).metrics =
      (mkOutput true (some "x") (Except.ok "") (stripCols exDF)).metrics ∧
    (mkOutput true (some "k") (Except.error "boom") (stripCols exDF)).chart =
      (mkOutput true (some "x") (Except.ok "") (stripCols exDF)).chart ∧
    (mkOutput true (some "k") (Except.error "boom") (stripCols exDF)).download =
      (mkOutput true (some "x") (Except.ok "") (stripCols exDF)).download ∧
    ((true = false ∨ (some "k" : Option String) = none ∨ (some "k" : Option String) = some "") →
      (mkOutput true (some "k") (Except.error "boom") (stripCols exDF)).insight =
        InsightOutcome.warning) ∧
    (∀ e, true = true → keyTruthy (some "k") = true →
      (Except.error "boom" : Except String String) = Except.error e →
      (mkOutput true (some "k") (Except.error "boom") (stripCols exDF)).insight =
        InsightOutcome.errorMsg ("Error AI: " ++ e)) :=
  insight_gated_nonfatal true (some "k") (Except.error "boom") exDF (by decide)

/-- C7: exporting the augmented table and re-importing the resulting
grid yields the same table — every record keeps its `Category`,
`Budget`, `Actual`, `Variance` and `Variance %` values, an undefined
`Variance %` travelling as an empty cell. -/
theorem export_reimport_roundtrip (df0 : DF) (h : wfDF (pipelineTable df0)) :
    reimportDF (exportDF (pipelineTable df0)) = pipelineTable df0 :=
  reimport_export _ h

/-- Witness for C7 on the zero-budget example (whose `Variance %` is
the missing value, exported as an empty cell). -/
theorem export_reimport_roundtrip_witness :
    wfDF (pipelineTable zbDF) ∧
    reimportDF (exportDF (pipelineTable zbDF)) = pipelineTable zbDF :=
  ⟨by decide, export_reimport_roundtrip zbDF (by decide)⟩

end UmkmApp

namespace UmkmApp

/-- A frame whose extra (fourth) column is named `Variance`. -/
def cexDF : DF :=
  [("Category", [Cell.str "A"]),
   ("Budget", [Cell.num 10]),
   ("Actual", [Cell.num 12]),
   ("Variance", [Cell.num 999])]

/-- A frame with an untouched extra column `Notes`. -/
def extraDF : DF :=
  [("Category", [Cell.str "A"]),
   ("Budget", [Cell.num 10]),
   ("Actual", [Cell.num 12]),
   ("Notes", [Cell.str "keep"])]

/-- A frame that already carries both derived column names. -/
def ovDF : DF :=
  [("Category", [Cell.str "A"]),
   ("Budget", [Cell.num 10]),
   ("Actual", [Cell.num 12]),
   ("Variance", [Cell.str "old"]),
   ("Variance %", [Cell.str "old pct"])]

/-- C8 counterexample: the extra `Variance` column of `cexDF` — a
column beyond `Category`, `Budget`, `Actual` — does not pass through
the pipeline with its values unmodified: `999` becomes the derived
`12 - 10`. -/
theorem passthrough_counterexample :
    getCol (stripCols cexDF) "Variance" = some [Cell.num 999] ∧
    getCol (pipelineTable cexDF) "Variance" = some [Cell.num (12 - 10)] ∧
    Cell.num 999 ≠ Cell.num (12 - 10) := by
  refine ⟨rfl, ?_, ?_⟩
  · rw [getCol_pipelineTable_variance]
    rfl
  · intro h
    have h2 : (999 : ℚ) = 12 - 10 := by injection h
    norm_num at h2

/-- C8 amended: every input column other than the computed ones
(`Budget`, `Actual`) and the derived names (`Variance`, `Variance %`)
passes through the pipeline with its values unmodified; when the two
derived names are fresh, the final column order is the input order
with the derived columns appended at the end; and the exported grid
starts with the header row listing every column name in order. -/
theorem passthrough_amended (df0 : DF) (name : String)
    (hschema : schemaOK (stripCols df0) = true)
    (hname : name ∉ (["Budget", "Actual", "Variance", "Variance %"] : List String)) :
    getCol (pipelineTable df0) name = getCol (stripCols df0) name ∧
    (("Variance" ∉ colNames (stripCols df0) ∧ "Variance %" ∉ colNames (stripCols df0)) →
      colNames (pipelineTable df0) =
        colNames (stripCols df0) ++ ["Variance", "Variance %"]) ∧
    (exportDF (pipelineTable df0)).head? =
      some ((colNames (pipelineTable df0)).map Cell.str) := by
  obtain ⟨hc, hb, ha⟩ := (schemaOK_iff _).mp hschema
  have h1 : name ≠ "Budget" := by intro hh; exact hname (by rw [hh]; decide)
  have h2 : name ≠ "Actual" := by intro hh; exact hname (by rw [hh]; decide)
  have h3 : name ≠ "Variance" := by intro hh; exact hname (by rw [hh]; decide)
  have h4 : name ≠ "Variance %" := by intro hh; exact hname (by rw [hh]; decide)
  refine ⟨getCol_pipelineTable_ne df0 name h1 h2 h3 h4, ?_, ?_⟩
  · rintro ⟨hv, hvp⟩
    have e2 : colNames (normalizeDF (stripCols df0)) = colNames (stripCols df0) :=
      colNames_normalizeDF _ hb ha
    have e3 : colNames (addVariance (normalizeDF (stripCols df0)))
        = colNames (normalizeDF (stripCols df0)) ++ ["Variance"] :=
      colNames_setCol_of_not_mem _ _ _ (by rw [e2]; exact hv)
    have e4 : colNames (pipelineTable df0)
        = colNames (addVariance (normalizeDF (stripCols df0))) ++ ["Variance %"] := by
      apply colNames_setCol_of_not_mem
      rw [e3, e2]
      intro hmem
      rcases List.mem_append.mp hmem with hmem | hmem
      · exact hvp hmem
      · exact absurd (List.mem_singleton.mp hmem) (by decide)
    rw [e4, e3, e2]
    simp
  · simp only [exportDF, colNames, List.head?_cons, List.map_map]
    rfl

/-- Witness for C8 (amended) on a frame with extra column `Notes`. -/
theorem passthrough_amended_witness :
    getCol (pipelineTable extraDF) "Notes" = getCol (stripCols extraDF) "Notes" ∧
    (("Variance" ∉ colNames (stripCols extraDF) ∧
        "Variance %" ∉ colNames (stripCols extraDF)) →
      colNames (pipelineTable extraDF) =
        colNames (stripCols extraDF) ++ ["Variance", "Variance %"]) ∧
    (exportDF (pipelineTable extraDF)).head? =
      some ((colNames (pipelineTable extraDF)).map Cell.str) :=
  passthrough_amended extraDF "Notes" (by decide) (by decide)

/-- C10: whatever the uploaded file held under the names `Variance`
and `Variance %`, after the pipeline those two columns hold exactly
the derived values — a pre-existing column of either name is silently
overwritten rather than passed through. When a derived name already
exists its column is replaced in place (no new column appended); only
a missing derived name is appended at the end. -/
theorem derived_columns_overwrite (df0 : DF)
    (hschema : schemaOK (stripCols df0) = true) :
    getCol (pipelineTable df0) "Variance" =
      some (List.zipWith (fun a b => Cell.num (a - b))
        (getColQ (normalizeDF (stripCols df0)) "Actual")
        (getColQ (normalizeDF (stripCols df0)) "Budget")) ∧
    getCol (pipelineTable df0) "Variance %" =
      some (List.zipWith (fun b v => if b = 0 then Cell.empty else Cell.num (v / b * 100))
        (getColQ (addVariance (normalizeDF (stripCols df0))) "Budget")
        (getColQ (addVariance (normalizeDF (stripCols df0))) "Variance")) ∧
    ("Variance" ∈ colNames (stripCols df0) → "Variance %" ∈ colNames (stripCols df0) →
      colNames (pipelineTable df0) = colNames (stripCols df0)) ∧
    ("Variance" ∉ colNames (stripCols df0) → "Variance %" ∈ colNames (stripCols df0) →
      colNames (pipelineTable df0) = colNames (stripCols df0) ++ ["Variance"]) ∧
    ("Variance" ∈ colNames (stripCols df0) → "Variance %" ∉ colNames (stripCols df0) →
      colNames (pipelineTable df0) = colNames (stripCols df0) ++ ["Variance %"]) := by
  obtain ⟨hc, hb, ha⟩ := (schemaOK_iff _).mp hschema
  have e2 : colNames (normalizeDF (stripCols df0)) = colNames (stripCols df0) :=
    colNames_normalizeDF _ hb ha
  refine ⟨getCol_pipelineTable_variance df0, getCol_pipelineTable_varpct df0, ?_, ?_, ?_⟩
  · intro hv hvp
    have e3 : colNames (addVariance (normalizeDF (stripCols df0)))
        = colNames (normalizeDF (stripCols df0)) :=
      colNames_setCol_of_mem _ _ _ (by rw [e2]; exact hv)
    have e4 : colNames (pipelineTable df0)
        = colNames (addVariance (normalizeDF (stripCols df0))) :=
      colNames_setCol_of_mem _ _ _ (by rw [e3, e2]; exact hvp)
    rw [e4, e3, e2]
  · intro hv hvp
    have e3 : colNames (addVariance (normalizeDF (stripCols df0)))
        = colNames (normalizeDF (stripCols df0)) ++ ["Variance"] :=
      colNames_setCol_of_not_mem _ _ _ (by rw [e2]; exact hv)
    have e4 : colNames (pipelineTable df0)
        = colNames (addVariance (normalizeDF (stripCols df0))) :=
      colNames_setCol_of_mem _ _ _ (by
        rw [e3, e2]
        exact List.mem_append.mpr (Or.inl hvp))
    rw [e4, e3, e2]
  · intro hv hvp
    have e3 : colNames (addVariance (normalizeDF (stripCols df0)))
        = colNames (normalizeDF (stripCols df0)) :=
      colNames_setCol_of_mem _ _ _ (by rw [e2]; exact hv)
    have e4 : colNames (pipelineTable df0)
        = colNames (addVariance (normalizeDF (stripCols df0))) ++ ["Variance %"] :=
      colNames_setCol_of_not_mem _ _ _ (by rw [e3, e2]; exact hvp)
    rw [e4, e3, e2]

/-- Witness for C10: the text cells of the pre-existing `Variance` and
`Variance %` columns of `ovDF` are replaced by the derived values and
the column set is unchanged. -/
theorem derived_columns_overwrite_witness :
    getCol (pipelineTable ovDF) "Variance" =
      some (List.zipWith (fun a b => Cell.num (a - b))
        (getColQ (normalizeDF (stripCols ovDF)) "Actual")
        (getColQ (normalizeDF (stripCols ovDF)) "Budget")) ∧
    getCol (pipelineTable ovDF) "Variance %" =
      some (List.zipWith (fun b v => if b = 0 then Cell.empty else Cell.num (v / b * 100))
        (getColQ (addVariance (normalizeDF (stripCols ovDF))) "Budget")
        (getColQ (addVariance (normalizeDF (stripCols ovDF))) "Variance")) ∧
    ("Variance" ∈ colNames (stripCols ovDF) → "Variance %" ∈ colNames (stripCols ovDF) →
      colNames (pipelineTable ovDF) = colNames (stripCols ovDF)) ∧
    ("Variance" ∉ colNames (stripCols ovDF) → "Variance %" ∈ colNames (stripCols ovDF) →
      colNames (pipelineTable ovDF) = colNames (stripCols ovDF) ++ ["Variance"]) ∧
    ("Variance" ∈ colNames (stripCols ovDF) → "Variance %" ∉ colNames (stripCols ovDF) →
      colNames (pipelineTable ovDF) = colNames (stripCols ovDF) ++ ["Variance %"]) :=
  derived_columns_overwrite ovDF (by decide)

end UmkmApp
